import Mathlib

/-
  Verification of the LLM-response normalization and validation pipeline of
  the travel-planner repository (file src/app/utils/gemini.py).

  The pipeline is embedded shallowly over `List Char`: each Python regex
  substitution is translated to a dedicated left-to-right scanner with the
  exact matching and backtracking behaviour of the original pattern, and the
  stateful `GeminiAPI` methods become explicit state-passing functions.
-/

deriving instance DecidableEq for Except

namespace TravelPlanner

/-! ### Characters that the source manipulates -/

def qc : Char := Char.ofNat 34        -- double quote
def apos : Char := Char.ofNat 39      -- single quote
def btick : Char := Char.ofNat 96     -- backtick
def bslash : Char := Char.ofNat 92    -- backslash
def lbrace : Char := Char.ofNat 123   -- opening curly brace
def rbrace : Char := Char.ofNat 125   -- closing curly brace
def nl : Char := Char.ofNat 10        -- newline

/-- Whitespace as recognised by Python's `str.strip()` and the regex class
    matched by a whitespace metacharacter (ASCII range). -/
def isPySpace (c : Char) : Bool :=
  c == ' ' || c == Char.ofNat 9 || c == nl || c == Char.ofNat 13 ||
  c == Char.ofNat 11 || c == Char.ofNat 12

/-- Python `str.strip()`: remove leading and trailing whitespace. -/
def pyStrip (l : List Char) : List Char :=
  ((l.dropWhile isPySpace).reverse.dropWhile isPySpace).reverse

/-- Python `str.strip('"\'')`: remove leading and trailing quote characters
    of either kind. -/
def stripQuotes (l : List Char) : List Char :=
  let isQ : Char → Bool := fun c => c == qc || c == apos
  ((l.dropWhile isQ).reverse.dropWhile isQ).reverse

def isDigitCh (c : Char) : Bool := '0' ≤ c && c ≤ '9'

/-! ### `_validate_time_format` (gemini.py lines 287-306)

    The Python body strips whitespace and quotes, appends ":00" to a bare
    1-2 digit hour, inserts a colon into a colon-free 3 or 4 character
    token, then parses with `strptime('%H:%M')` and re-formats zero-padded;
    any failure is caught and the token reached at that point is returned. -/

/-- The anchored bare-hour pattern of the source (1-2 digits, where the
    trailing anchor also accepts one final newline). -/
def bareHour (t1 : List Char) : Bool :=
  let core := if t1.getLast? == some nl then t1.dropLast else t1
  core.length ≥ 1 && core.length ≤ 2 && core.all isDigitCh

/-- The transformation the source applies to the token before the
    `strptime` parse: strip, unquote, `:00`-append for a bare 1-2 digit
    hour, colon insertion for colon-free length-3/4 tokens. -/
def vtfSteps (t : List Char) : List Char :=
  let t1 := stripQuotes (pyStrip t)
  let t2 := if bareHour t1 then t1 ++ [':', '0', '0'] else t1
  if t2.contains ':' then t2
  else if t2.length = 3 then [t2.headI] ++ [':'] ++ t2.tail
  else if t2.length = 4 then t2.take 2 ++ [':'] ++ t2.drop 2
  else t2

def digitsToNat (l : List Char) : Nat :=
  l.foldl (fun a c => a * 10 + (c.toNat - 48)) 0

/-- `datetime.strptime(s, '%H:%M')` followed by `map(int, s.split(':'))`:
    succeeds exactly on `H:M` with 1-2 digit fields, hour 0-23, minute
    0-59, and nothing else in the string. -/
def parseHHMM (t : List Char) : Option (Nat × Nat) :=
  let hs := t.takeWhile (fun c => !(c == ':'))
  let rest := t.dropWhile (fun c => !(c == ':'))
  match rest with
  | ':' :: ms =>
    if hs.length ≥ 1 && hs.length ≤ 2 && hs.all isDigitCh &&
       ms.length ≥ 1 && ms.length ≤ 2 && ms.all isDigitCh &&
       decide (digitsToNat hs ≤ 23) && decide (digitsToNat ms ≤ 59)
    then some (digitsToNat hs, digitsToNat ms)
    else none
  | _ => none

/-- Zero-padded two-digit rendering of a number below 100. -/
def fmt2 (n : Nat) : List Char :=
  [Char.ofNat (48 + n / 10), Char.ofNat (48 + n % 10)]

/-- `GeminiAPI._validate_time_format`: normalize a time token, returning
    the token reached so far whenever the final parse fails (the source
    catches its own exception and returns `time_str`). -/
def validateTimeFormat (t : List Char) : List Char :=
  match parseHHMM (vtfSteps t) with
  | some (h, m) => fmt2 h ++ [':'] ++ fmt2 m
  | none => vtfSteps t

/-! ### The regex substitutions of `_clean_json_text` (gemini.py 308-345)

    Each Python `re.sub` / `str.replace` becomes a left-to-right scanner:
    at each position it attempts the pattern (with the pattern's exact
    greediness and backtracking), emits the replacement and continues after
    the match, or emits one character and advances.  Every scanner takes a
    fuel argument; passing the input length as fuel is always sufficient
    because each recursive call consumes at least one input character. -/

/-- Consume one leading newline when present. -/
def dropNl : List Char → List Char
  | d :: r => if d == nl then r else d :: r
  | [] => []

/-- After a matched triple backtick: optionally consume the letters
    `json`, then optionally consume one newline. -/
def fenceTail (l : List Char) : List Char :=
  if l.take 4 == "json".data then dropNl (l.drop 4) else dropNl l

/-- Scanner for the code-fence pattern: a triple backtick, optionally
    followed by the letters `json`, optionally followed by a newline, all
    removed. -/
def fenceSub : Nat → List Char → List Char
  | 0, l => l
  | _ + 1, [] => []
  | f + 1, c :: rest =>
    if c == btick then
      match rest with
      | b2 :: b3 :: rest2 =>
        if b2 == btick && b3 == btick then fenceSub f (fenceTail rest2)
        else c :: fenceSub f rest
      | _ => c :: fenceSub f rest
    else c :: fenceSub f rest

/-- Scanner for `str.replace` of a bare triple backtick with nothing. -/
def replaceTicks : Nat → List Char → List Char
  | 0, l => l
  | _ + 1, [] => []
  | f + 1, c :: rest =>
    if c == btick then
      match rest with
      | b2 :: b3 :: rest2 =>
        if b2 == btick && b3 == btick then replaceTicks f rest2
        else c :: replaceTicks f rest
      | _ => c :: replaceTicks f rest
    else c :: replaceTicks f rest

/-- Scanner for the over-escaping pattern: a run of two or more quotes, one
    or more non-quote characters, and another run of two or more quotes,
    collapsed to a single quoted token. -/
def overEscA : Nat → List Char → List Char
  | 0, l => l
  | _ + 1, [] => []
  | f + 1, c :: rest =>
    if c == qc then
      let qrun := (c :: rest).takeWhile (fun x => x == qc)
      let afterRun := (c :: rest).dropWhile (fun x => x == qc)
      if qrun.length ≥ 2 then
        let content := afterRun.takeWhile (fun x => !(x == qc))
        let rest2 := afterRun.dropWhile (fun x => !(x == qc))
        let qrun2 := rest2.takeWhile (fun x => x == qc)
        if content.length ≥ 1 && qrun2.length ≥ 2 then
          qc :: content ++ qc :: overEscA f (rest2.dropWhile (fun x => x == qc))
        else qrun ++ overEscA f afterRun
      else c :: overEscA f rest
    else c :: overEscA f rest

/-- Scanner for a run of one or more backslashes directly before a quote,
    replaced by a bare quote. -/
def overEscB : Nat → List Char → List Char
  | 0, l => l
  | _ + 1, [] => []
  | f + 1, c :: rest =>
    if c == bslash then
      let brun := (c :: rest).takeWhile (fun x => x == bslash)
      let after := (c :: rest).dropWhile (fun x => x == bslash)
      match after with
      | q :: r => if q == qc then qc :: overEscB f r else brun ++ overEscB f after
      | [] => brun
    else c :: overEscB f rest

/-- Scanner for a quoted token (a quote, one or more non-quote characters,
    a quote), with every space removed from the content. -/
def spaceRm : Nat → List Char → List Char
  | 0, l => l
  | _ + 1, [] => []
  | f + 1, c :: rest =>
    if c == qc then
      let content := rest.takeWhile (fun x => !(x == qc))
      let rest2 := rest.dropWhile (fun x => !(x == qc))
      match rest2 with
      | q2 :: r2 =>
        if content.length ≥ 1 then
          qc :: (content.filter (fun x => !(x == ' '))) ++ q2 :: spaceRm f r2
        else c :: spaceRm f rest
      | [] => c :: spaceRm f rest
    else c :: spaceRm f rest

def isIdentStart (c : Char) : Bool :=
  ('a' ≤ c && c ≤ 'z') || ('A' ≤ c && c ≤ 'Z') || c == '_'

def isIdentChar (c : Char) : Bool := isIdentStart c || isDigitCh c

/-- Scanner quoting bare object keys: an opening brace or comma, optional
    whitespace, an identifier, optional whitespace and a colon become the
    punctuator followed by the identifier in quotes and the colon. -/
def keyQuote : Nat → List Char → List Char
  | 0, l => l
  | _ + 1, [] => []
  | f + 1, c :: rest =>
    if c == lbrace || c == ',' then
      let r1 := rest.dropWhile isPySpace
      let ident := r1.takeWhile isIdentChar
      let r2 := (r1.dropWhile isIdentChar).dropWhile isPySpace
      match r2 with
      | ':' :: r3 =>
        if ident.length ≥ 1 && isIdentStart ident.headI then
          c :: qc :: ident ++ qc :: ':' :: keyQuote f r3
        else c :: keyQuote f rest
      | _ => c :: keyQuote f rest
    else c :: keyQuote f rest

/-- Attempted match, just after an opening quote, of 1-2 digits, the letter
    `h` and a closing quote; yields the replacement tail (digits, `:00`,
    closing quote) and the rest of the input. -/
def timeHMatch : List Char → Option (List Char × List Char)
  | a :: b :: e3 :: rest =>
    if isDigitCh a && isDigitCh b && e3 == 'h' then
      match rest with
      | e4 :: rest2 =>
        if e4 == qc then some ([a, b, ':', '0', '0', qc], rest2) else none
      | [] => none
    else if isDigitCh a && b == 'h' && e3 == qc then
      some ([a, ':', '0', '0', qc], rest)
    else none
  | _ => none

/-- Scanner for a quoted 1-2 digit hour followed by `h`, rewritten to
    `H:00`. -/
def timeH : Nat → List Char → List Char
  | 0, l => l
  | _ + 1, [] => []
  | f + 1, c :: rest =>
    if c == qc then
      match timeHMatch rest with
      | some (rep, r) => qc :: rep ++ timeH f r
      | none => c :: timeH f rest
    else c :: timeH f rest

/-- Attempted match, just after an opening quote, of 3-4 digits and a
    closing quote (greedy: four digits preferred); yields the replacement
    tail with a colon before the final two digits, and the rest. -/
def timeHMMatch : List Char → Option (List Char × List Char)
  | a :: b :: e3 :: e4 :: e5 :: rest =>
    if isDigitCh a && isDigitCh b && isDigitCh e3 && isDigitCh e4 && e5 == qc then
      some ([a, b, ':', e3, e4, qc], rest)
    else if isDigitCh a && isDigitCh b && isDigitCh e3 && e4 == qc then
      some ([a, ':', b, e3, qc], e5 :: rest)
    else none
  | [a, b, e3, e4] =>
    if isDigitCh a && isDigitCh b && isDigitCh e3 && e4 == qc then
      some ([a, ':', b, e3, qc], [])
    else none
  | _ => none

/-- Scanner for a quoted bare 3-4 digit token, rewritten with a colon
    before the final two digits. -/
def timeHM : Nat → List Char → List Char
  | 0, l => l
  | _ + 1, [] => []
  | f + 1, c :: rest =>
    if c == qc then
      match timeHMMatch rest with
      | some (rep, r) => qc :: rep ++ timeHM f r
      | none => c :: timeHM f rest
    else c :: timeHM f rest

/-- Scanner for `str.replace` of a three-dot ellipsis with nothing. -/
def ellipsisRm : Nat → List Char → List Char
  | 0, l => l
  | _ + 1, [] => []
  | f + 1, c :: rest =>
    if c == '.' then
      match rest with
      | d :: e :: r =>
        if d == '.' && e == '.' then ellipsisRm f r else c :: ellipsisRm f rest
      | _ => c :: ellipsisRm f rest
    else c :: ellipsisRm f rest

/-! ### `_repair_truncated_json` (gemini.py lines 347-358) -/

/-- `GeminiAPI._repair_truncated_json`: count unmatched braces and
    brackets, append the missing closers (all braces first, then all
    brackets), and strip the result. -/
def repairTruncated (l : List Char) : List Char :=
  let ob := l.count lbrace
  let cb := l.count rbrace
  let obk := l.count '['
  let cbk := l.count ']'
  let l1 := if cb < ob then l ++ List.replicate (ob - cb) rbrace else l
  let l2 := if cbk < obk then l1 ++ List.replicate (obk - cbk) ']' else l1
  pyStrip l2

/-! ### `_clean_json_text` (gemini.py lines 308-338) -/

/-- `text.find(openbrace)` / `text.rfind(closebrace)` and the slice
    `text[start:end+1]`; `none` when either brace is absent, which the
    source turns into the raised-and-caught "No valid JSON found" error. -/
def sliceBraces (l : List Char) : Option (List Char) :=
  match l.findIdx? (fun c => c == lbrace), l.reverse.findIdx? (fun c => c == rbrace) with
  | some s, some rj => some ((l.drop s).take (l.length - rj - s))
  | _, _ => none

/-- `text.encode('ascii', 'ignore').decode()`: drop non-ASCII characters. -/
def asciiFilter (l : List Char) : List Char := l.filter (fun c => c.toNat ≤ 127)

/-- `GeminiAPI._fix_over_escaped_quotes` (gemini.py lines 340-345). -/
def fixOverEscaped (l : List Char) : List Char :=
  let a := overEscA l.length l
  let b := overEscB a.length a
  spaceRm b.length b

/-- The sanitizer steps before the brace search: strip, code-fence removal,
    bare triple-backtick removal.  When the brace search fails, the caught
    exception makes `_clean_json_text` return exactly this text. -/
def preClean (l : List Char) : List Char :=
  let t := pyStrip l
  let t1 := fenceSub t.length t
  replaceTicks t1.length t1

/-- The body of `_clean_json_text`'s `try` block: the full substitution
    pipeline, failing (with the "No valid JSON found" error) when no
    brace span exists. -/
def cleanTry (l : List Char) : Except Unit (List Char) :=
  match sliceBraces (preClean l) with
  | none => Except.error ()
  | some t2 =>
    let t3 := fixOverEscaped t2
    let t4 := keyQuote t3.length t3
    let t5 := spaceRm t4.length t4
    let t6 := timeH t5.length t5
    let t7 := timeHM t6.length t6
    let t8 := t7.map (fun c => if c == apos then qc else c)
    let t9 := ellipsisRm t8.length t8
    let t10 :=
      if ((pyStrip t9).getLast? == some rbrace) then t9 else repairTruncated t9
    Except.ok (pyStrip (asciiFilter t10))

/-- `GeminiAPI._clean_json_text`: the `try` body with its internal failure
    caught, returning the text reached at the raise point. -/
def cleanJsonText (l : List Char) : List Char :=
  match cleanTry l with
  | Except.ok r => r
  | Except.error _ => preClean l

/-! ### Parsed JSON values and `_validate_itinerary` (gemini.py 246-285) -/

/-- A parsed JSON value, the shape `json.loads` hands to the validator. -/
inductive J where
  | s (cs : List Char)
  | n (v : Int)
  | b (v : Bool)
  | arr (xs : List J)
  | obj (kvs : List (List Char × J))
  | null

/-- Dictionary lookup (first binding wins, as Python keys are unique). -/
def lookupJ (kvs : List (List Char × J)) (k : List Char) : Option J :=
  (kvs.find? (fun p => p.1 == k)).map (fun p => p.2)

/-- Replace the value bound to a key, leaving other bindings alone
    (in-place dictionary item assignment). -/
def objSet (kvs : List (List Char × J)) (k : List Char) (v : J) :
    List (List Char × J) :=
  kvs.map (fun p => if p.1 == k then (p.1, v) else p)

/-- Python `==` between a parsed JSON value and an `int` (`True == 1`). -/
def pyEqInt (j : J) (i : Int) : Bool :=
  match j with
  | J.n v => v == i
  | J.b bv => (if bv then (1 : Int) else 0) == i
  | _ => false

/-- ASCII `str.lower()`. -/
def lowerL (l : List Char) : List Char :=
  l.map (fun c => if 'A' ≤ c && c ≤ 'Z' then Char.ofNat (c.toNat + 32) else c)

def timeK : List Char := "time".data
def durationK : List Char := "duration".data
def descriptionK : List Char := "description".data
def locationK : List Char := "location".data
def costK : List Char := "cost".data
def typeK : List Char := "type".data
def dayK : List Char := "day".data
def dateK : List Char := "date".data
def activitiesK : List Char := "activities".data
def dailyBudgetK : List Char := "daily_budget".data
def notesK : List Char := "notes".data
def dailyPlansK : List Char := "daily_plans".data
def totalBudgetK : List Char := "total_budget".data
def generalTipsK : List Char := "general_tips".data
def emergencyContactsK : List Char := "emergency_contacts".data

def activityReqKeys : List (List Char) :=
  [timeK, durationK, descriptionK, locationK, costK, typeK]

def dayReqKeys : List (List Char) :=
  [dayK, dateK, activitiesK, dailyBudgetK]

def itineraryReqKeys : List (List Char) :=
  [dailyPlansK, totalBudgetK, generalTipsK, emergencyContactsK]

def validTypes : List (List Char) :=
  ["activity".data, "meal".data, "transport".data]

/-- The validation failures `_validate_itinerary` can raise. -/
inductive VErr where
  | missingKeys (ks : List (List Char))
  | plansNotList
  | seqErr
  | emptyActivities
  | invalidType
  | attrErr
  | notDict
deriving DecidableEq

/-- Keys of `req` absent from the dictionary
    (`_validate_json_structure`'s `missing_keys`). -/
def missingOf (kvs : List (List Char × J)) (req : List (List Char)) :
    List (List Char) :=
  req.filter (fun k => (lookupJ kvs k).isNone)

/-- Validation of one activity record: required keys, in-place time
    normalization, and the case-insensitive type-enum check (the lowered
    type is only compared, never stored). -/
def validateActivity (a : J) : Except VErr J :=
  match a with
  | J.obj kvs =>
    match missingOf kvs activityReqKeys with
    | [] =>
      match lookupJ kvs timeK, lookupJ kvs typeK with
      | some tv, some tyv =>
        let tv' := match tv with
          | J.s cs => J.s (validateTimeFormat cs)
          | other => other
        let kvs' := objSet kvs timeK tv'
        match tyv with
        | J.s tcs =>
          if validTypes.contains (lowerL tcs) then Except.ok (J.obj kvs')
          else Except.error VErr.invalidType
        | _ => Except.error VErr.attrErr
      | _, _ => Except.error (VErr.missingKeys [])
    | ms => Except.error (VErr.missingKeys ms)
  | _ => Except.error VErr.notDict

def validateActivities : List J → Except VErr (List J)
  | [] => Except.ok []
  | a :: rest => do
    let a' ← validateActivity a
    let rest' ← validateActivities rest
    Except.ok (a' :: rest')

/-- Validation of one day record at 1-based position `idx`: required keys,
    the sequential day-number check, the non-empty activity list check,
    and each activity in order. -/
def validateDay (idx : Int) (d : J) : Except VErr J :=
  match d with
  | J.obj kvs =>
    match missingOf kvs dayReqKeys with
    | [] =>
      match lookupJ kvs dayK, lookupJ kvs activitiesK with
      | some dv, some av =>
        if pyEqInt dv idx then
          match av with
          | J.arr (a :: acts) => do
            let acts' ← validateActivities (a :: acts)
            Except.ok (J.obj (objSet kvs activitiesK (J.arr acts')))
          | _ => Except.error VErr.emptyActivities
        else Except.error VErr.seqErr
      | _, _ => Except.error (VErr.missingKeys [])
    | ms => Except.error (VErr.missingKeys ms)
  | _ => Except.error VErr.notDict

def validatePlans : Int → List J → Except VErr (List J)
  | _, [] => Except.ok []
  | idx, d :: rest => do
    let d' ← validateDay idx d
    let rest' ← validatePlans (idx + 1) rest
    Except.ok (d' :: rest')

/-- `GeminiAPI._validate_itinerary`, returning the itinerary with its
    in-place mutations (time normalization) applied, or the first
    validation failure. -/
def validateItinerary (it : J) : Except VErr J :=
  match it with
  | J.obj kvs =>
    match missingOf kvs itineraryReqKeys with
    | [] =>
      match lookupJ kvs dailyPlansK with
      | some (J.arr (p :: ps)) => do
        let plans' ← validatePlans 1 (p :: ps)
        Except.ok (J.obj (objSet kvs dailyPlansK (J.arr plans')))
      | some _ => Except.error VErr.plansNotList
      | none => Except.error (VErr.missingKeys [])
    | ms => Except.error (VErr.missingKeys ms)
  | _ => Except.error VErr.notDict

/-! ### The fallback data (gemini.py lines 77-145) -/

/-- `GeminiAPI._get_mock_suggestions`. -/
def mockSuggestions : J :=
  J.obj
    [("attractions".data, J.arr
      [J.obj [("name".data, J.s "ParisianMuseum".data),
              (descriptionK, J.s "Historicalartifacts".data),
              (costK, J.s "20EUR".data),
              ("time_needed".data, J.s "3hours".data)],
       J.obj [("name".data, J.s "EiffelTower".data),
              (descriptionK, J.s "IconicParisianlandmark".data),
              (costK, J.s "25EUR".data),
              ("time_needed".data, J.s "2hours".data)],
       J.obj [("name".data, J.s "NotreDame".data),
              (descriptionK, J.s "Historicalcathedral".data),
              (costK, J.s "0EUR".data),
              ("time_needed".data, J.s "1hour".data)]]),
     ("restaurants".data, J.arr
      [J.obj [("name".data, J.s "LeBistro".data),
              (descriptionK, J.s "Traditionalfrenchcuisine".data),
              (costK, J.s "30EUR".data),
              ("cuisine".data, J.s "French".data)],
       J.obj [("name".data, J.s "CafeParis".data),
              (descriptionK, J.s "Casualfrenchdining".data),
              (costK, J.s "25EUR".data),
              ("cuisine".data, J.s "French".data)],
       J.obj [("name".data, J.s "BrasserieRoyal".data),
              (descriptionK, J.s "Elegantdining".data),
              (costK, J.s "45EUR".data),
              ("cuisine".data, J.s "French".data)]]),
     ("activities".data, J.arr
      [J.obj [("name".data, J.s "RiverCruise".data),
              (descriptionK, J.s "SeineRivertour".data),
              (costK, J.s "15EUR".data),
              ("time_needed".data, J.s "1hour".data)],
       J.obj [("name".data, J.s "WineTours".data),
              (descriptionK, J.s "Winetasting".data),
              (costK, J.s "40EUR".data),
              ("time_needed".data, J.s "3hours".data)],
       J.obj [("name".data, J.s "BikeRental".data),
              (descriptionK, J.s "Citybiketour".data),
              (costK, J.s "10EUR".data),
              ("time_needed".data, J.s "2hours".data)]])]

/-- `GeminiAPI._get_mock_itinerary`. -/
def mockItinerary : J :=
  J.obj
    [(dailyPlansK, J.arr
      [J.obj
        [(dayK, J.n 1),
         (dateK, J.s "2024-03-30".data),
         (activitiesK, J.arr
          [J.obj [(timeK, J.s "09:00".data),
                  (durationK, J.s "3hours".data),
                  (descriptionK, J.s "ExploreMuseum".data),
                  (locationK, J.s "ParisianMuseum".data),
                  (costK, J.s "20EUR".data),
                  (typeK, J.s "activity".data)],
           J.obj [(timeK, J.s "12:30".data),
                  (durationK, J.s "1hour".data),
                  (descriptionK, J.s "Lunch".data),
                  (locationK, J.s "LeBistro".data),
                  (costK, J.s "30EUR".data),
                  (typeK, J.s "meal".data)],
           J.obj [(timeK, J.s "14:00".data),
                  (durationK, J.s "2hours".data),
                  (descriptionK, J.s "CityTour".data),
                  (locationK, J.s "BikeRental".data),
                  (costK, J.s "10EUR".data),
                  (typeK, J.s "activity".data)]]),
         (dailyBudgetK, J.s "60EUR".data),
         (notesK, J.s "Startwithamuseumvisitandrelaxingbiketouraround".data)]]),
     (totalBudgetK, J.s "60EUR".data),
     (generalTipsK, J.arr
      [J.s "Bookmuseumticketsinadvance".data,
       J.s "Uselocaltransport".data,
       J.s "Carrywater".data]),
     (emergencyContactsK, J.obj
      [("police".data, J.s "17".data),
       ("ambulance".data, J.s "15".data),
       ("tourist_police".data, J.s "17".data)])]

/-! ### The stateful API wrapper (gemini.py 147-215)

    The instance state that the claims are about is the `use_mock` flag and
    the cached suggestion/itinerary context.  The external model call is an
    oracle parameter: it answers with text, with an error whose message
    contains "quota", or with any other error.  Parsing
    (`_parse_json_response`, which wraps the Python `json` library) is a
    function parameter from response text to a parsed value or a failure. -/

inductive ModelResult where
  | ok (text : List Char)
  | errQuota
  | errOther
deriving DecidableEq

inductive GErr where
  | emptyResponse
  | quota
  | transport
  | parseFail
  | validation (e : VErr)
deriving DecidableEq

structure GState where
  use_mock : Bool
  suggestions : Option J
  finalItinerary : Option J

/-- `GeminiAPI._generate_response`: an empty text is raised as an error; a
    model failure whose message mentions the quota flips `use_mock` before
    re-raising; every failure propagates to the caller. -/
def generateResponse (s : GState) (mr : ModelResult) :
    GState × Except GErr (List Char) :=
  match mr with
  | ModelResult.ok t =>
    if t.isEmpty then (s, Except.error GErr.emptyResponse) else (s, Except.ok t)
  | ModelResult.errQuota => ({ s with use_mock := true }, Except.error GErr.quota)
  | ModelResult.errOther => (s, Except.error GErr.transport)

/-- `GeminiAPI.generate_suggestions`: mock short-circuit, model call, parse,
    context caching on success; on any failure the handler falls back to the
    mock suggestions if `use_mock` is still false, and re-raises otherwise. -/
def generateSuggestions (s : GState) (mr : ModelResult)
    (parseS : List Char → Except GErr J) : GState × Except GErr J :=
  if s.use_mock then (s, Except.ok mockSuggestions)
  else
    let handler : GState → GErr → GState × Except GErr J := fun s' e =>
      if s'.use_mock then (s', Except.error e)
      else ({ s' with use_mock := true }, Except.ok mockSuggestions)
    match generateResponse s mr with
    | (s1, Except.error e) => handler s1 e
    | (s1, Except.ok text) =>
      match parseS text with
      | Except.error e => handler s1 e
      | Except.ok sugg => ({ s1 with suggestions := some sugg }, Except.ok sugg)

/-- Python truthiness of a parsed JSON value, as `if not
    self.context.get(key)` tests it: absent (`None`), empty containers and
    strings, zero and `False` are falsy. -/
def jTruthy (j : J) : Bool :=
  match j with
  | J.s cs => !cs.isEmpty
  | J.n v => !(v == 0)
  | J.b bv => bv
  | J.arr xs => !xs.isEmpty
  | J.obj kvs => !kvs.isEmpty
  | J.null => false

/-- `GeminiAPI.generate_itinerary`: mock short-circuit; generate and cache
    suggestions when the context value is absent or falsy (the source's
    truthiness test on `context.get`); model call, parse, validation,
    context caching; the failure handler falls back to the mock itinerary if
    `use_mock` is still false when it runs, and re-raises otherwise. -/
def generateItinerary (s : GState) (mrS mrI : ModelResult)
    (parseS parseI : List Char → Except GErr J) : GState × Except GErr J :=
  if s.use_mock then (s, Except.ok mockItinerary)
  else
    let handler : GState → GErr → GState × Except GErr J := fun s' e =>
      if s'.use_mock then (s', Except.error e)
      else ({ s' with use_mock := true }, Except.ok mockItinerary)
    let regen : GState × Except GErr J :=
      match generateSuggestions s mrS parseS with
      | (s', Except.error e) => (s', Except.error e)
      | (s', Except.ok sg) => ({ s' with suggestions := some sg }, Except.ok sg)
    let sugg : GState × Except GErr J :=
      match s.suggestions with
      | some sg => if jTruthy sg then (s, Except.ok sg) else regen
      | none => regen
    match sugg with
    | (s1, Except.error e) => handler s1 e
    | (s1, Except.ok _) =>
      match generateResponse s1 mrI with
      | (s2, Except.error e) => handler s2 e
      | (s2, Except.ok text) =>
        match parseI text with
        | Except.error e => handler s2 e
        | Except.ok raw =>
          match validateItinerary raw with
          | Except.error e => handler s2 (GErr.validation e)
          | Except.ok v => ({ s2 with finalItinerary := some v }, Except.ok v)

/-! ### Observations used by the theorem statements -/

/-- The day entry as the DayPlan/Activity invariant sees it: its `day`
    field equals the given 1-based position and its `activities` field is a
    non-empty list. -/
def planEntryOk (idx : Int) (d : J) : Bool :=
  match d with
  | J.obj kvs =>
    (match lookupJ kvs dayK with
     | some dv => pyEqInt dv idx
     | none => false) &&
    (match lookupJ kvs activitiesK with
     | some (J.arr (_ :: _)) => true
     | _ => false)
  | _ => false

def plansSeqOk : Int → List J → Bool
  | _, [] => true
  | idx, d :: rest => planEntryOk idx d && plansSeqOk (idx + 1) rest

/-- The DayPlan invariant of the data model: `daily_plans` is a non-empty
    list whose entries carry sequential day numbers from 1 and non-empty
    activity lists. -/
def planInvariantsOk (it : J) : Bool :=
  match it with
  | J.obj kvs =>
    match lookupJ kvs dailyPlansK with
    | some (J.arr plans) => !plans.isEmpty && plansSeqOk 1 plans
    | _ => false
  | _ => false

/-- The `day` field of a day entry. -/
def dayFieldOf (d : J) : Option J :=
  match d with
  | J.obj kvs => lookupJ kvs dayK
  | _ => none

/-- The sequence of `day` fields of an itinerary's `daily_plans`. -/
def dayFields (it : J) : List (Option J) :=
  match it with
  | J.obj kvs =>
    match lookupJ kvs dailyPlansK with
    | some (J.arr plans) => plans.map dayFieldOf
    | _ => []
  | _ => []

/-- The `type` field of the first activity of the first day. -/
def firstTypeOf (it : J) : Option J :=
  match it with
  | J.obj kvs =>
    match lookupJ kvs dailyPlansK with
    | some (J.arr (J.obj dk :: _)) =>
      match lookupJ dk activitiesK with
      | some (J.arr (J.obj ak :: _)) => lookupJ ak typeK
      | _ => none
    | _ => none
  | _ => none

/-- A schema-complete activity whose `type` field is the given string and
    whose time is already canonical. -/
def mkActTy (ty : List Char) : J :=
  J.obj [(timeK, J.s "09:00".data), (durationK, J.s "1hour".data),
         (descriptionK, J.s "Visit".data), (locationK, J.s "Museum".data),
         (costK, J.s "5EUR".data), (typeK, J.s ty)]

/-- A schema-complete one-day itinerary whose only activity has the given
    `type` string. -/
def mkItinTy (ty : List Char) : J :=
  J.obj [(dailyPlansK, J.arr
           [J.obj [(dayK, J.n 1), (dateK, J.s "2024-03-30".data),
                   (activitiesK, J.arr [mkActTy ty]),
                   (dailyBudgetK, J.s "5EUR".data)]]),
         (totalBudgetK, J.s "5EUR".data),
         (generalTipsK, J.arr []),
         (emergencyContactsK, J.obj [])]

/-- A schema-complete itinerary whose first `daily_plans` element carries
    `day = 2`. -/
def day2Itinerary : J :=
  J.obj [(dailyPlansK, J.arr
           [J.obj [(dayK, J.n 2), (dateK, J.s "2024-03-30".data),
                   (activitiesK, J.arr [mkActTy "activity".data]),
                   (dailyBudgetK, J.s "5EUR".data)]]),
         (totalBudgetK, J.s "5EUR".data),
         (generalTipsK, J.arr []),
         (emergencyContactsK, J.obj [])]

/-- A parse stage that always fails, for exercising the fallback paths. -/
def alwaysFail : List Char → Except GErr J := fun _ => Except.error GErr.parseFail

/-- The truncated text of the spec's repair example. -/
def truncExample : List Char := [lbrace, qc, 'a', qc, ':', '[', '1', ',', '2']

/-- Clean single-line JSON whose only string value contains an ellipsis
    between digits. -/
def ellipsisExample : List Char :=
  [lbrace, qc, 'a', qc, ':', qc, '1', '.', '.', '.', '2', '3', qc, rbrace]

/-- Clean JSON text that the sanitizer leaves unchanged. -/
def cleanExampleA : List Char :=
  [lbrace, qc, 'a', qc, ':', qc, 'b', qc, ',', qc, 'n', qc, ':', '1', '2', rbrace]

/-- Clean JSON text with a bare 3-digit time value. -/
def cleanExampleB : List Char :=
  [lbrace, qc, 't', 'i', 'm', 'e', qc, ':', qc, '9', '3', '0', qc, rbrace]

/-- Clean JSON text with an hour-shorthand time value. -/
def cleanExampleC : List Char :=
  [lbrace, qc, 't', qc, ':', qc, '9', 'h', qc, rbrace]

/-! ## Helper lemmas

    Shared facts about the embedded pipeline: characters of the sanitizer
    preprocessing are characters of its input, dictionary updates preserve
    unrelated keys, and a successful validation certifies the DayPlan
    invariants. -/


lemma mem_pyStrip {l : List Char} {c : Char} (h : c ∈ pyStrip l) : c ∈ l := by
  unfold pyStrip at h
  rw [List.mem_reverse] at h
  have h1 := (List.dropWhile_sublist isPySpace).subset h
  rw [List.mem_reverse] at h1
  exact (List.dropWhile_sublist isPySpace).subset h1

lemma mem_dropNl {l : List Char} {c : Char} (h : c ∈ dropNl l) : c ∈ l := by
  rcases l with _ | ⟨d, r⟩
  · exact h
  · simp only [dropNl] at h
    split at h
    · exact List.mem_cons_of_mem d h
    · exact h

lemma mem_fenceTail {l : List Char} {c : Char} (h : c ∈ fenceTail l) : c ∈ l := by
  unfold fenceTail at h
  split at h
  · exact List.drop_subset 4 l (mem_dropNl h)
  · exact mem_dropNl h

lemma mem_fenceSub : ∀ (f : Nat) (l : List Char) {c : Char}, c ∈ fenceSub f l → c ∈ l := by
  intro f
  induction f with
  | zero =>
    intro l c h
    rcases l with _ | ⟨a, rest⟩ <;> simpa only [fenceSub] using h
  | succ f ih =>
    intro l c h
    have step : ∀ (a : Char) (r : List Char), c ∈ a :: fenceSub f r → c ∈ a :: r := by
      intro a r hm
      rcases List.mem_cons.mp hm with h1 | h1
      · exact h1 ▸ List.mem_cons_self a r
      · exact List.mem_cons_of_mem a (ih r h1)
    rcases l with _ | ⟨a, rest⟩
    · simpa only [fenceSub] using h
    rcases rest with _ | ⟨b2, rest1⟩
    · simp only [fenceSub] at h
      split at h
      · exact step a [] h
      · exact step a [] h
    rcases rest1 with _ | ⟨b3, rest2⟩
    · simp only [fenceSub] at h
      split at h
      · exact step a [b2] h
      · exact step a [b2] h
    · simp only [fenceSub] at h
      split at h
      · split at h
        · exact List.mem_cons_of_mem a (List.mem_cons_of_mem b2
            (List.mem_cons_of_mem b3 (mem_fenceTail (ih _ h))))
        · exact step a (b2 :: b3 :: rest2) h
      · exact step a (b2 :: b3 :: rest2) h

lemma mem_replaceTicks : ∀ (f : Nat) (l : List Char) {c : Char},
    c ∈ replaceTicks f l → c ∈ l := by
  intro f
  induction f with
  | zero =>
    intro l c h
    rcases l with _ | ⟨a, rest⟩ <;> simpa only [replaceTicks] using h
  | succ f ih =>
    intro l c h
    have step : ∀ (a : Char) (r : List Char), c ∈ a :: replaceTicks f r → c ∈ a :: r := by
      intro a r hm
      rcases List.mem_cons.mp hm with h1 | h1
      · exact h1 ▸ List.mem_cons_self a r
      · exact List.mem_cons_of_mem a (ih r h1)
    rcases l with _ | ⟨a, rest⟩
    · simpa only [replaceTicks] using h
    rcases rest with _ | ⟨b2, rest1⟩
    · simp only [replaceTicks] at h
      split at h
      · exact step a [] h
      · exact step a [] h
    rcases rest1 with _ | ⟨b3, rest2⟩
    · simp only [replaceTicks] at h
      split at h
      · exact step a [b2] h
      · exact step a [b2] h
    · simp only [replaceTicks] at h
      split at h
      · split at h
        · exact List.mem_cons_of_mem a (List.mem_cons_of_mem b2
            (List.mem_cons_of_mem b3 (ih _ h)))
        · exact step a (b2 :: b3 :: rest2) h
      · exact step a (b2 :: b3 :: rest2) h

lemma mem_preClean {l : List Char} {c : Char} (h : c ∈ preClean l) : c ∈ l := by
  unfold preClean at h
  exact mem_pyStrip (mem_fenceSub _ _ (mem_replaceTicks _ _ h))


lemma objSet_cons_pos {pk : List Char} {pv : J} {rest : List (List Char × J)}
    {k : List Char} {v : J} (hk : (pk == k) = true) :
    objSet ((pk, pv) :: rest) k v = (pk, v) :: objSet rest k v := by
  simp [objSet, hk]
  intro he
  exact absurd (eq_of_beq hk) he

lemma objSet_cons_neg {pk : List Char} {pv : J} {rest : List (List Char × J)}
    {k : List Char} {v : J} (hk : (pk == k) = false) :
    objSet ((pk, pv) :: rest) k v = (pk, pv) :: objSet rest k v := by
  simp [objSet, hk]
  intro he
  rw [he] at hk
  simp at hk

lemma lookupJ_objSet_self (kvs : List (List Char × J)) (k : List Char) (v : J) :
    lookupJ (objSet kvs k v) k = (lookupJ kvs k).map (fun _ => v) := by
  induction kvs with
  | nil => rfl
  | cons p rest ih =>
    rcases p with ⟨pk, pv⟩
    cases hk : (pk == k) with
    | true =>
      rw [objSet_cons_pos hk]
      unfold lookupJ
      rw [List.find?_cons_of_pos _ (by simpa using hk),
        List.find?_cons_of_pos _ (by simpa using hk)]
      rfl
    | false =>
      rw [objSet_cons_neg hk]
      unfold lookupJ
      rw [List.find?_cons_of_neg _ (by simpa using hk),
        List.find?_cons_of_neg _ (by simpa using hk)]
      exact ih

lemma lookupJ_objSet_ne (kvs : List (List Char × J)) (k : List Char) (v : J)
    (k' : List Char) (h : (k' == k) = false) :
    lookupJ (objSet kvs k v) k' = lookupJ kvs k' := by
  have hne : k' ≠ k := by
    intro he
    rw [he] at h
    simp at h
  induction kvs with
  | nil => rfl
  | cons p rest ih =>
    rcases p with ⟨pk, pv⟩
    by_cases hpk : (pk == k) = true
    · have hpkk : pk = k := eq_of_beq hpk
      have hx : (pk == k') = false := by
        rw [hpkk]
        cases hc : (k == k')
        · rfl
        · exact absurd (eq_of_beq hc).symm hne
      rw [objSet_cons_pos hpk]
      unfold lookupJ
      rw [List.find?_cons_of_neg _ (by simpa using hx),
        List.find?_cons_of_neg _ (by simpa using hx)]
      exact ih
    · have hpkf : (pk == k) = false := by
        cases hc : (pk == k)
        · rfl
        · exact absurd hc hpk
      rw [objSet_cons_neg hpkf]
      cases hx : (pk == k') with
      | true =>
        unfold lookupJ
        rw [List.find?_cons_of_pos _ (by simpa using hx),
          List.find?_cons_of_pos _ (by simpa using hx)]
      | false =>
        unfold lookupJ
        rw [List.find?_cons_of_neg _ (by simpa using hx),
          List.find?_cons_of_neg _ (by simpa using hx)]
        exact ih

lemma validateActivities_len : ∀ (as as' : List J),
    validateActivities as = Except.ok as' → as'.length = as.length := by
  intro as
  induction as with
  | nil =>
    intro as' h
    simp only [validateActivities] at h
    cases h
    rfl
  | cons a rest ih =>
    intro as' h
    simp only [validateActivities, bind, Except.bind] at h
    cases ha : validateActivity a with
    | error e => rw [ha] at h; cases h
    | ok a' =>
      rw [ha] at h
      cases hr : validateActivities rest with
      | error e => rw [hr] at h; cases h
      | ok rest' =>
        rw [hr] at h
        cases h
        simp [ih rest' hr]


lemma validateDay_ok {idx : Int} {d d' : J} (h : validateDay idx d = Except.ok d') :
    planEntryOk idx d = true ∧ planEntryOk idx d' = true ∧
    dayFieldOf d' = dayFieldOf d := by
  rcases d with cs | vv | bv | xs | kvs | _
  case s => exact Except.noConfusion h
  case n => exact Except.noConfusion h
  case b => exact Except.noConfusion h
  case arr => exact Except.noConfusion h
  case null => exact Except.noConfusion h
  case obj =>
  simp only [validateDay] at h
  cases hm : missingOf kvs dayReqKeys with
  | cons m ms => simp only [hm] at h; exact Except.noConfusion h
  | nil =>
  simp only [hm] at h
  cases hd : lookupJ kvs dayK with
  | none => simp only [hd] at h; exact Except.noConfusion h
  | some dv =>
  simp only [hd] at h
  cases ha : lookupJ kvs activitiesK with
  | none => simp only [ha] at h; exact Except.noConfusion h
  | some av =>
  simp only [ha] at h
  cases hpy : pyEqInt dv idx with
  | false => simp only [hpy] at h; simp at h
  | true =>
  simp only [hpy, if_true] at h
  rcases av with cs2 | vv2 | bv2 | xs2 | kvs2 | _
  case s => simp at h
  case n => simp at h
  case b => simp at h
  case obj => simp at h
  case null => simp at h
  case arr =>
  rcases xs2 with _ | ⟨a, acts⟩
  · simp at h
  simp only [bind, Except.bind] at h
  cases hacts : validateActivities (a :: acts) with
  | error e => simp only [hacts] at h; simp at h
  | ok acts' =>
  simp only [hacts] at h
  cases h
  have hlen := validateActivities_len _ _ hacts
  have hdne : (dayK == activitiesK) = false := by decide
  refine ⟨?_, ?_, ?_⟩
  · simp [planEntryOk, hd, ha, hpy]
  · have l1 : lookupJ (objSet kvs activitiesK (J.arr acts')) dayK
        = lookupJ kvs dayK := lookupJ_objSet_ne _ _ _ _ hdne
    have l2 : lookupJ (objSet kvs activitiesK (J.arr acts')) activitiesK
        = some (J.arr acts') := by
      rw [lookupJ_objSet_self, ha]
      rfl
    rcases acts' with _ | ⟨a', rest'⟩
    · simp at hlen
    simp [planEntryOk, l1, l2, hd, hpy]
  · simp [dayFieldOf, lookupJ_objSet_ne _ _ _ _ hdne]

lemma validatePlans_ok : ∀ (plans : List J) (idx : Int) (plans' : List J),
    validatePlans idx plans = Except.ok plans' →
    plansSeqOk idx plans = true ∧ plansSeqOk idx plans' = true ∧
    plans'.map dayFieldOf = plans.map dayFieldOf := by
  intro plans
  induction plans with
  | nil =>
    intro idx plans' h
    simp only [validatePlans] at h
    cases h
    exact ⟨rfl, rfl, rfl⟩
  | cons d rest ih =>
    intro idx plans' h
    simp only [validatePlans, bind, Except.bind] at h
    cases hd : validateDay idx d with
    | error e => simp only [hd] at h; exact Except.noConfusion h
    | ok d' =>
      rw [hd] at h
      cases hr : validatePlans (idx + 1) rest with
      | error e => simp only [hr] at h; exact Except.noConfusion h
      | ok rest' =>
        simp only [hr] at h
        cases h
        obtain ⟨h1, h2, h3⟩ := validateDay_ok hd
        obtain ⟨r1, r2, r3⟩ := ih (idx + 1) rest' hr
        exact ⟨by simp [plansSeqOk, h1, r1], by simp [plansSeqOk, h2, r2],
          by simp [h3, r3]⟩

lemma validateItinerary_ok {it out : J} (h : validateItinerary it = Except.ok out) :
    planInvariantsOk it = true ∧ planInvariantsOk out = true ∧
    dayFields out = dayFields it := by
  rcases it with cs | vv | bv | xs | kvs | _
  case s => exact Except.noConfusion h
  case n => exact Except.noConfusion h
  case b => exact Except.noConfusion h
  case arr => exact Except.noConfusion h
  case null => exact Except.noConfusion h
  case obj =>
  simp only [validateItinerary] at h
  cases hm : missingOf kvs itineraryReqKeys with
  | cons m ms => simp only [hm] at h; exact Except.noConfusion h
  | nil =>
  simp only [hm] at h
  cases hp : lookupJ kvs dailyPlansK with
  | none => simp only [hp] at h; exact Except.noConfusion h
  | some pv =>
  simp only [hp] at h
  rcases pv with cs2 | vv2 | bv2 | xs2 | kvs2 | _
  case s => simp at h
  case n => simp at h
  case b => simp at h
  case obj => simp at h
  case null => simp at h
  case arr =>
  rcases xs2 with _ | ⟨p, ps⟩
  · simp at h
  simp only [bind, Except.bind] at h
  cases hpl : validatePlans 1 (p :: ps) with
  | error e => simp only [hpl] at h; simp at h
  | ok plans' =>
  simp only [hpl] at h
  cases h
  obtain ⟨q1, q2, q3⟩ := validatePlans_ok _ _ _ hpl
  have hlen : plans'.length = (p :: ps).length := by
    have := congrArg List.length q3
    simpa using this
  have hdne : (dailyPlansK == dailyPlansK) = true := by decide
  have l2 : lookupJ (objSet kvs dailyPlansK (J.arr plans')) dailyPlansK
      = some (J.arr plans') := by
    rw [lookupJ_objSet_self, hp]
    rfl
  refine ⟨?_, ?_, ?_⟩
  · simp [planInvariantsOk, hp, q1]
  · rcases plans' with _ | ⟨p', ps'⟩
    · simp at hlen
    simp [planInvariantsOk, l2, q2]
  · simp [dayFields, l2, hp, q3]

/-! ## The claims -/


lemma findIdx_none_of_not_mem {l : List Char} {x : Char} (h : x ∉ l) :
    l.findIdx? (fun c => c == x) = none := by
  rw [List.findIdx?_eq_none_iff]
  intro c hc
  cases hb : (c == x)
  · rfl
  · exact absurd (eq_of_beq hb ▸ hc) h

/-- Claim C5 (amended): on raw text containing no opening or no closing
    brace, the sanitizer raises its "No valid JSON found" error internally,
    but catches it and still returns a value to the parsing stage - the
    stripped, fence-removed text - rather than failing. -/
theorem claim_C5_theorem (t : List Char) (h : lbrace ∉ t ∨ rbrace ∉ t) :
    cleanTry t = Except.error () ∧ cleanJsonText t = preClean t := by
  have hslice : sliceBraces (preClean t) = none := by
    unfold sliceBraces
    rcases h with h | h
    · have h1 : (preClean t).findIdx? (fun c => c == lbrace) = none :=
        findIdx_none_of_not_mem (fun hx => h (mem_preClean hx))
      rw [h1]
    · have h1 : (preClean t).reverse.findIdx? (fun c => c == rbrace) = none :=
        findIdx_none_of_not_mem (fun hx => h (mem_preClean (List.mem_reverse.mp hx)))
      rw [h1]
      cases (preClean t).findIdx? (fun c => c == lbrace) <;> rfl
  have h2 : cleanTry t = Except.error () := by
    unfold cleanTry
    rw [hslice]
  refine ⟨h2, ?_⟩
  unfold cleanJsonText
  rw [h2]

/-- Claim C6 (amended): for every input, the truncation repairer returns
    the input with exactly the deficit of closing braces (first) and then
    closing brackets appended at the end, and then stripped of surrounding
    whitespace; no interior character is ever removed. -/
theorem claim_C6_theorem (t : List Char) :
    repairTruncated t
      = pyStrip (t ++ List.replicate (t.count lbrace - t.count rbrace) rbrace
          ++ List.replicate (t.count '[' - t.count ']') ']') := by
  unfold repairTruncated
  by_cases h1 : t.count rbrace < t.count lbrace
  · by_cases h2 : t.count ']' < t.count '['
    · simp [h1, h2, List.append_assoc]
    · have e2 : t.count '[' - t.count ']' = 0 :=
        Nat.sub_eq_zero_of_le (Nat.le_of_not_lt h2)
      simp [h1, h2, e2]
  · have e1 : t.count lbrace - t.count rbrace = 0 :=
      Nat.sub_eq_zero_of_le (Nat.le_of_not_lt h1)
    by_cases h2 : t.count ']' < t.count '['
    · simp [h1, h2, e1]
    · have e2 : t.count '[' - t.count ']' = 0 :=
        Nat.sub_eq_zero_of_le (Nat.le_of_not_lt h2)
      simp [h1, h2, e1, e2]

/-- Counterexample to C6 as stated: on an input with leading whitespace the
    repairer does not merely append closers - the final `strip()` removes
    the leading space, so the output is not the input plus a suffix. -/
theorem claim_C6_cex : repairTruncated [' ', lbrace] ≠ [' ', lbrace, rbrace] := by
  decide

/-- Claim C2 (amended): the truncation repairer applied to the spec's
    example appends all missing closing braces before all missing closing
    brackets, yielding the text with the brace first - not the reverse of
    the open order. -/
theorem claim_C2_theorem :
    repairTruncated truncExample = truncExample ++ [rbrace, ']'] := by decide

/-- Counterexample to C2 as stated: the repairer's output on the spec's
    example differs from the claimed output with bracket closed before
    brace. -/
theorem claim_C2_cex :
    repairTruncated truncExample ≠ truncExample ++ [']', rbrace] := by decide

/-- Counterexample to C3 as stated: the validator's time normalizer
    returns `9h` unchanged rather than `9:00` (the hour-shorthand rewrite
    lives in the sanitizer, not in `_validate_time_format`). -/
theorem claim_C3_cex : validateTimeFormat "9h".data ≠ "9:00".data := by decide

/-- Claim C3 (amended): `_validate_time_format` leaves `9h` unchanged,
    zero-pads `930` to `09:30`, and fixes `14:05`; the spec's exact
    equations `9h -> 9:00` and `930 -> 9:30` hold of the sanitizer's
    quoted-token rewrites in `_clean_json_text` instead. -/
theorem claim_C3_theorem :
    validateTimeFormat "9h".data = "9h".data
    ∧ validateTimeFormat "930".data = "09:30".data
    ∧ validateTimeFormat "14:05".data = "14:05".data
    ∧ cleanJsonText cleanExampleC
        = [lbrace, qc, 't', qc, ':', qc, '9', ':', '0', '0', qc, rbrace]
    ∧ cleanJsonText cleanExampleB
        = [lbrace, qc, 't', 'i', 'm', 'e', qc, ':', qc, '9', ':', '3', '0', qc, rbrace] := by
  refine ⟨by decide, by decide, by decide, by decide, by decide⟩

/-- Claim C4 (amended): when the normalized token fails the final `HH:MM`
    parse, `_validate_time_format` returns - without raising - the token as
    transformed so far (stripped, unquoted, with `:00` appended or a colon
    inserted), which is not necessarily the original token: `25` comes back
    as `25:00`. -/
theorem claim_C4_theorem :
    (∀ t : List Char, parseHHMM (vtfSteps t) = none → validateTimeFormat t = vtfSteps t)
    ∧ validateTimeFormat "25".data = "25:00".data := by
  constructor
  · intro t h
    unfold validateTimeFormat
    rw [h]
  · decide

/-- Witness for C4: the amended theorem applied at the concrete unparseable
    token `abc`. -/
theorem claim_C4_witness :
    parseHHMM (vtfSteps "abc".data) = none
    ∧ validateTimeFormat "abc".data = vtfSteps "abc".data :=
  ⟨by decide, claim_C4_theorem.1 "abc".data (by decide)⟩

/-- Counterexample to C4 as stated: `25` does not parse as a valid time
    after normalization, yet the function returns `25:00`, not the original
    token unchanged. -/
theorem claim_C4_cex :
    parseHHMM (vtfSteps "25".data) = none
    ∧ validateTimeFormat "25".data ≠ "25".data := by
  constructor <;> decide

/-- Witness for C5: the amended theorem applied to the concrete brace-free
    input `xyz`. -/
theorem claim_C5_witness :
    (lbrace ∉ "xyz".data ∨ rbrace ∉ "xyz".data)
    ∧ cleanTry "xyz".data = Except.error ()
    ∧ cleanJsonText "xyz".data = preClean "xyz".data :=
  ⟨Or.inl (by decide), claim_C5_theorem "xyz".data (Or.inl (by decide))⟩

/-- Counterexample to C5 as stated: on the brace-free input `hello` the
    sanitizer does return a value (the text itself) to the parsing stage;
    the NoJsonFound failure never escapes `_clean_json_text`. -/
theorem claim_C5_cex :
    cleanTry "hello".data = Except.error ()
    ∧ cleanJsonText "hello".data = "hello".data := by
  constructor <;> decide

/-- Counterexample to C9 as stated: a single-line, ASCII, space-free,
    properly quoted JSON text containing an ellipsis between digits is not
    a sanitizer fixpoint after one pass - ellipsis removal creates a bare
    3-digit token that the second pass rewrites as a time. -/
theorem claim_C9_cex :
    ellipsisExample.all (fun c => c.toNat ≤ 127 && !(c == ' ') && !(c == nl)) = true
    ∧ cleanJsonText (cleanJsonText ellipsisExample) ≠ cleanJsonText ellipsisExample := by
  constructor <;> decide

/-- Claim C9 (amended): applying the sanitizer twice equals applying it
    once on representative already-clean JSON texts whose values do not
    contain ellipsis-digit patterns, including texts the first pass rewrites
    (bare `930` and `9h` time values). -/
theorem claim_C9_theorem :
    cleanJsonText (cleanJsonText cleanExampleA) = cleanJsonText cleanExampleA
    ∧ cleanJsonText (cleanJsonText cleanExampleB) = cleanJsonText cleanExampleB
    ∧ cleanJsonText (cleanJsonText cleanExampleC) = cleanJsonText cleanExampleC := by
  refine ⟨by decide, by decide, by decide⟩

/-- Claim C7: a successful validation certifies that every `daily_plans`
    entry of both the input and the returned itinerary carries the day
    number equal to its 1-based position and a non-empty activity list, and
    the validator never renumbers - the day fields of the output are those
    of the input; an itinerary whose first element carries `day = 2` is
    rejected with the sequence error. -/
theorem claim_C7_theorem :
    (∀ it out : J, validateItinerary it = Except.ok out →
      planInvariantsOk it = true ∧ planInvariantsOk out = true ∧
      dayFields out = dayFields it)
    ∧ validateItinerary day2Itinerary = Except.error VErr.seqErr :=
  ⟨fun _ _ h => validateItinerary_ok h, by rfl⟩

/-- Witness for C7: the theorem's universal part applied to the mock
    itinerary, which validates successfully. -/
theorem claim_C7_witness :
    planInvariantsOk mockItinerary = true
    ∧ planInvariantsOk mockItinerary = true
    ∧ dayFields mockItinerary = dayFields mockItinerary :=
  claim_C7_theorem.1 mockItinerary mockItinerary (by rfl)

/-- Claim C8 (amended): the validator accepts an activity exactly when its
    `type` lowercases into the enum (so `MEAL` is accepted and `snack` is
    rejected with the invalid-type error), but on success it stores the
    field unchanged - the lowercased value is only compared, never written
    back. -/
theorem claim_C8_theorem :
    (∀ ty : List Char, validateActivity (mkActTy ty)
        = if validTypes.contains (lowerL ty) then Except.ok (mkActTy ty)
          else Except.error VErr.invalidType)
    ∧ validateItinerary (mkItinTy "snack".data) = Except.error VErr.invalidType
    ∧ validateItinerary (mkItinTy "MEAL".data) = Except.ok (mkItinTy "MEAL".data)
    ∧ firstTypeOf (mkItinTy "MEAL".data) = some (J.s "MEAL".data) :=
  ⟨fun _ => rfl, rfl, rfl, rfl⟩

/-- Counterexample to C8 as stated: validation succeeds on an activity with
    type `MEAL`, yet the stored type field is not the lowercase `meal`. -/
theorem claim_C8_cex :
    validateItinerary (mkItinTy "MEAL".data) = Except.ok (mkItinTy "MEAL".data)
    ∧ firstTypeOf (mkItinTy "MEAL".data) ≠ some (J.s "meal".data) := by
  refine ⟨rfl, ?_⟩
  intro hcontra
  have h1 : J.s "MEAL".data = J.s "meal".data := Option.some.inj hcontra
  have h2 : "MEAL".data = "meal".data := J.s.inj h1
  exact absurd h2 (by decide)


/-- Claim C10: mock mode is sticky - with `use_mock` set, the suggestion
    and itinerary generators return exactly the fixed mock values without
    consulting the model oracle or changing state, and no operation (the
    model-call wrapper included) ever resets the flag to false. -/
theorem claim_C10_theorem (s : GState) (mrS mrI mr : ModelResult)
    (parseS parseI : List Char → Except GErr J) (h : s.use_mock = true) :
    generateSuggestions s mrS parseS = (s, Except.ok mockSuggestions)
    ∧ generateItinerary s mrS mrI parseS parseI = (s, Except.ok mockItinerary)
    ∧ (generateResponse s mr).1.use_mock = true := by
  refine ⟨?_, ?_, ?_⟩
  · unfold generateSuggestions
    rw [h]
    simp
  · unfold generateItinerary
    rw [h]
    simp
  · cases mr with
    | ok t =>
      unfold generateResponse
      by_cases ht : t.isEmpty = true <;> simp [ht, h]
    | errQuota => rfl
    | errOther => exact h

/-- Witness for C10: the theorem applied to a concrete mock-mode state. -/
theorem claim_C10_witness :
    generateSuggestions ⟨true, none, none⟩ ModelResult.errOther alwaysFail
        = (⟨true, none, none⟩, Except.ok mockSuggestions)
    ∧ generateItinerary ⟨true, none, none⟩ ModelResult.errOther ModelResult.errOther
          alwaysFail alwaysFail
        = (⟨true, none, none⟩, Except.ok mockItinerary)
    ∧ (generateResponse ⟨true, none, none⟩ ModelResult.errOther).1.use_mock = true :=
  claim_C10_theorem ⟨true, none, none⟩ ModelResult.errOther ModelResult.errOther
    ModelResult.errOther alwaysFail alwaysFail rfl

/-- Counterexample to C1 as stated: a model failure whose message mentions
    the quota flips `use_mock` inside `_generate_response`, so the fallback
    handler re-raises instead of returning the mock itinerary - the
    exception escapes `generate_itinerary`. -/
theorem claim_C1_cex :
    generateItinerary ⟨false, some mockSuggestions, none⟩ ModelResult.errOther
        ModelResult.errQuota alwaysFail alwaysFail
      = (⟨true, some mockSuggestions, none⟩, Except.error GErr.quota) := by rfl

/-- Claim C1 (amended): with a truthy suggestions value cached (so the
    source's `context.get` truthiness test skips regeneration) and
    `use_mock` still false, `generate_itinerary` is total for every
    non-quota model outcome: it returns a value that the itinerary
    validator has certified (the mock itinerary included), hence one
    satisfying the DayPlan/Activity invariants; only failures that flip the
    mock flag mid-call (quota errors, or failures after an in-call
    suggestions fallback or regeneration) escape as exceptions. -/
theorem claim_C1_theorem (s : GState) (mrS mrI : ModelResult)
    (parseS parseI : List Char → Except GErr J) (sg : J)
    (hm : s.use_mock = false) (hs : s.suggestions = some sg)
    (htr : jTruthy sg = true)
    (hq : mrI ≠ ModelResult.errQuota) :
    ∃ v : J, (generateItinerary s mrS mrI parseS parseI).2 = Except.ok v ∧
      ∃ raw : J, validateItinerary raw = Except.ok v ∧ planInvariantsOk v = true := by
  have hmockv : validateItinerary mockItinerary = Except.ok mockItinerary := by rfl
  have hmocki : planInvariantsOk mockItinerary = true := by rfl
  obtain ⟨um, sug, fin⟩ := s
  simp only at hm hs
  subst hm
  subst hs
  cases mrI with
  | errQuota => exact absurd rfl hq
  | errOther =>
    refine ⟨mockItinerary, ?_, mockItinerary, hmockv, hmocki⟩
    simp [generateItinerary, generateResponse, htr]
  | ok t =>
    by_cases ht : t.isEmpty = true
    · refine ⟨mockItinerary, ?_, mockItinerary, hmockv, hmocki⟩
      simp [generateItinerary, generateResponse, ht, htr]
    · have htf : t.isEmpty = false := by
        cases hx : t.isEmpty
        · rfl
        · exact absurd hx ht
      cases hp : parseI t with
      | error e =>
        refine ⟨mockItinerary, ?_, mockItinerary, hmockv, hmocki⟩
        simp [generateItinerary, generateResponse, htf, hp, htr]
      | ok raw =>
        cases hv : validateItinerary raw with
        | error e =>
          refine ⟨mockItinerary, ?_, mockItinerary, hmockv, hmocki⟩
          simp [generateItinerary, generateResponse, htf, hp, hv, htr]
        | ok v =>
          refine ⟨v, ?_, raw, hv, (validateItinerary_ok hv).2.1⟩
          simp [generateItinerary, generateResponse, htf, hp, hv, htr]

/-- Witness for C1: the amended theorem applied to a concrete state with
    truthy cached suggestions and a failing (non-quota) model outcome. -/
theorem claim_C1_witness :
    ∃ v : J, (generateItinerary ⟨false, some mockSuggestions, none⟩
        ModelResult.errOther ModelResult.errOther alwaysFail alwaysFail).2
        = Except.ok v ∧
      ∃ raw : J, validateItinerary raw = Except.ok v ∧ planInvariantsOk v = true :=
  claim_C1_theorem ⟨false, some mockSuggestions, none⟩ ModelResult.errOther
    ModelResult.errOther alwaysFail alwaysFail mockSuggestions rfl rfl rfl
    (by decide)

end TravelPlanner
